import Mathlib

/-!
Shallow embedding of the TranscodeManager task-supervisor subsystem
(Go sources: package `process`, package `parse`, package `ffmpeg`
validator, package `task` store) together with proofs checking the
natural-language specification against it.

Modelling conventions:
* Go `uint64` values are modelled as `Nat` with explicit `% 2 ^ 64`
  where the Go code can overflow (counter increments, `x * 1024`).
* Go `int`/`int64` values are modelled as `Int`, with explicit two's
  complement wrapping where Go arithmetic can overflow.
* Go `float64` fields of the progress snapshot (`Time`, `Speed`,
  `Quantizer`) are modelled as exact rationals `ℚ`; the claims under
  scrutiny only involve values on which Go's double arithmetic is
  exact, so the rational model agrees with the code there.
* Side effects (goroutines, timers, the OS process, the log ring's
  timestamps) are modelled by explicit state fields or elided when no
  claim mentions them; each elision is noted at the definition.
-/

namespace TranscodeManager

/-! ## Process state machine (Go package `process`) -/

/-- The six supervisor states (`stateType` constants in the source). -/
inductive stateType where
  | finished
  | starting
  | running
  | finishing
  | failed
  | killed
deriving DecidableEq

/-- `stateType.String()` from the source. -/
def stateType.toStr : stateType → String
  | .finished => "finished"
  | .starting => "starting"
  | .running => "running"
  | .finishing => "finishing"
  | .failed => "failed"
  | .killed => "killed"

/-- `stateType.IsRunning()` from the source: starting, running and
finishing count as running. -/
def stateType.isRunningState : stateType → Bool
  | .starting => true
  | .running => true
  | .finishing => true
  | _ => false

/-- Cumulative per-state counters (`States` struct in the source,
Go `uint64` fields). -/
structure States where
  Finished : Nat
  Starting : Nat
  Running : Nat
  Finishing : Nat
  Failed : Nat
  Killed : Nat
deriving DecidableEq

/-- The all-zero counter record (initial value of `p.state.states`). -/
def States.zero : States :=
  ⟨0, 0, 0, 0, 0, 0⟩

/-- Modulus of Go's `uint64` arithmetic. -/
def uint64Mod : Nat := 2 ^ 64

/-- Increment the counter of the destination state, with Go `uint64`
wrapping, as the success branches of `process.setState` do. -/
def States.bump (st : States) : stateType → States
  | .finished => { st with Finished := (st.Finished + 1) % uint64Mod }
  | .starting => { st with Starting := (st.Starting + 1) % uint64Mod }
  | .running => { st with Running := (st.Running + 1) % uint64Mod }
  | .finishing => { st with Finishing := (st.Finishing + 1) % uint64Mod }
  | .failed => { st with Failed := (st.Failed + 1) % uint64Mod }
  | .killed => { st with Killed := (st.Killed + 1) % uint64Mod }

/-- Text of the error produced by `process.setState` on a refused
transition (at that point `p.state.state` still holds the old state). -/
def transitionErrText (cur next : stateType) : String :=
  "can't change from " ++ cur.toStr ++ " to " ++ next.toStr

/-- `process.setState` from the source, as a pure function: given the
current state and counters and the requested state, return the new
(state, counters) pair together with `some` error text when the
transition was refused.  The failure branches of the Go function touch
neither the state nor the counters, which the embedding mirrors by
returning them unchanged. -/
def setState (cur next : stateType) (st : States) :
    (stateType × States) × Option String :=
  match cur with
  | .finished =>
    if next = .starting then ((next, st.bump next), none)
    else ((cur, st), some (transitionErrText cur next))
  | .starting =>
    match next with
    | .finishing => ((next, st.bump next), none)
    | .running => ((next, st.bump next), none)
    | .failed => ((next, st.bump next), none)
    | _ => ((cur, st), some (transitionErrText cur next))
  | .running =>
    match next with
    | .finished => ((next, st.bump next), none)
    | .finishing => ((next, st.bump next), none)
    | .failed => ((next, st.bump next), none)
    | .killed => ((next, st.bump next), none)
    | _ => ((cur, st), some (transitionErrText cur next))
  | .finishing =>
    match next with
    | .finished => ((next, st.bump next), none)
    | .failed => ((next, st.bump next), none)
    | .killed => ((next, st.bump next), none)
    | _ => ((cur, st), some (transitionErrText cur next))
  | .failed =>
    if next = .starting then ((next, st.bump next), none)
    else ((cur, st), some (transitionErrText cur next))
  | .killed =>
    if next = .starting then ((next, st.bump next), none)
    else ((cur, st), some (transitionErrText cur next))

/-- Modelled from the spec: the legal-transitions table of §4.3,
verbatim.  (Used only to compare the spec's table against the table
implemented by `setState`.) -/
def specLegal : stateType → stateType → Bool
  | .finished, .starting => true
  | .starting, .running => true
  | .starting, .failed => true
  | .running, .finished => true
  | .running, .failed => true
  | .running, .killed => true
  | .running, .finishing => true
  | .finishing, .finished => true
  | .finishing, .failed => true
  | .finishing, .killed => true
  | .failed, .starting => true
  | .killed, .starting => true
  | _, _ => false

/-- The transition table actually implemented by `process.setState`:
the spec's §4.3 table plus the transition `starting → finishing`
(reachable when `Stop` is issued while the supervisor is `starting`). -/
def codeLegal (cur next : stateType) : Bool :=
  specLegal cur next || (cur = .starting && next = .finishing)

/-! ## Waiter exit classification (Go `process.waiter`) -/

/-- The error value returned by Go's `exec.Cmd.Wait`, as far as the
waiter inspects it: an `exec.ExitError` carrying `Exited()` and the
exit status, or some other error. -/
inductive waitErr where
  | exitErr (exited : Bool) (code : Int)
  | otherErr
deriving DecidableEq

/-- The classification performed by `process.waiter` on the result of
`cmd.Wait()` (`none` = no error): nil error → finished; `ExitError`
with `Exited()` true → finished when the status is 255 else failed;
otherwise → killed. -/
def classifyWait : Option waitErr → stateType
  | none => .finished
  | some (.exitErr true code) => if code = 255 then .finished else .failed
  | some (.exitErr false _) => .killed
  | some .otherErr => .killed

/-- The `cmd.Wait()` outcome for a child that exits normally with the
given status code.  Per the contract of Go's `os/exec`, `Wait` returns
a nil error exactly when the child exits with status 0, and an
`exec.ExitError` with `Exited() = true` and that status otherwise. -/
def waitOutcomeOfNormalExit (code : Int) : Option waitErr :=
  if code = 0 then none else some (.exitErr true code)

/-! ## Progress parser (Go package `parse`)

The parser's regular expressions are simple enough to embed directly:
each is a literal token, optional whitespace, a captured character run
and possibly a literal suffix.  The embedding scans candidate start
positions left to right, which is exactly RE2's leftmost-match rule
for patterns that begin with a literal. -/

/-- Go regexp's Perl class `\s`, i.e. `[\t\n\f\r ]`. -/
def goWS (c : Char) : Bool :=
  c = '\t' || c = '\n' || c = '\x0c' || c = '\r' || c = ' '

/-- Drop a leading run of `\s` characters (the `\s*` part). -/
def dropWS : List Char → List Char
  | [] => []
  | c :: cs => if goWS c then dropWS cs else c :: cs

/-- Split off the maximal leading run of decimal digits (`[0-9]+`,
greedy). -/
def takeDigits : List Char → List Char × List Char
  | [] => ([], [])
  | c :: cs =>
    if c.isDigit then
      let p := takeDigits cs
      (c :: p.1, p.2)
    else ([], c :: cs)

/-- Character class `[0-9\.]` used by the `q=` and `speed=` captures. -/
def isFloatChar (c : Char) : Bool := c.isDigit || c = '.'

/-- Split off the maximal leading run of `[0-9\.]` characters. -/
def takeFloatChars : List Char → List Char × List Char
  | [] => ([], [])
  | c :: cs =>
    if isFloatChar c then
      let p := takeFloatChars cs
      (c :: p.1, p.2)
    else ([], c :: cs)

/-- Try pattern `tok\s*([0-9]+)suffix` anchored at the head of `s`;
return the captured digit run.  (`[0-9]+` is greedy, and neither a
colon, a letter nor any suffix character used in the source is a
digit, so the maximal run followed by a suffix check is exact.) -/
def matchNumAt (tok suffix s : List Char) : Option (List Char) :=
  if tok.isPrefixOf s then
    let rest := dropWS (s.drop tok.length)
    let p := takeDigits rest
    if p.1 ≠ [] ∧ suffix.isPrefixOf p.2 then some p.1 else none
  else none

/-- Leftmost match of `tok\s*([0-9]+)suffix` anywhere in `s`. -/
def scanNum (tok suffix : List Char) : List Char → Option (List Char)
  | [] => matchNumAt tok suffix []
  | c :: cs =>
    match matchNumAt tok suffix (c :: cs) with
    | some ds => some ds
    | none => scanNum tok suffix cs

/-- Try pattern `tok\s*([0-9\.]+)suffix` anchored at the head of
`s`. -/
def matchFloatAt (tok suffix s : List Char) : Option (List Char) :=
  if tok.isPrefixOf s then
    let rest := dropWS (s.drop tok.length)
    let p := takeFloatChars rest
    if p.1 ≠ [] ∧ suffix.isPrefixOf p.2 then some p.1 else none
  else none

/-- Leftmost match of `tok\s*([0-9\.]+)suffix` anywhere in `s`. -/
def scanFloat (tok suffix : List Char) : List Char → Option (List Char)
  | [] => matchFloatAt tok suffix []
  | c :: cs =>
    match matchFloatAt tok suffix (c :: cs) with
    | some ds => some ds
    | none => scanFloat tok suffix cs

/-- Leftmost match of the two-alternative patterns
`tok1\s*([0-9]+)|tok2\s*([0-9]+)` (`drop=`/`drop_frames=` and
`dup=`/`dup_frames=`): at each position the first alternative has
priority, matching RE2's leftmost-first rule. -/
def scanAltNum (tok1 tok2 : List Char) : List Char → Option (List Char)
  | [] =>
    match matchNumAt tok1 [] [] with
    | some ds => some ds
    | none => matchNumAt tok2 [] []
  | c :: cs =>
    match matchNumAt tok1 [] (c :: cs) with
    | some ds => some ds
    | none =>
      match matchNumAt tok2 [] (c :: cs) with
      | some ds => some ds
      | none => scanAltNum tok1 tok2 cs

/-- The captures of
`time=\s*([0-9]+):([0-9]{2}):([0-9]{2})\.([0-9]+)`:
hours, minutes, seconds, fractional digits. -/
structure TimeCaps where
  hh : List Char
  mm : List Char
  ss : List Char
  fr : List Char
deriving DecidableEq

/-- Try the `time=` pattern anchored at the head of `s`.  `[0-9]{2}`
is a fixed-width group, so it never backtracks: exactly two digits
must be followed by the next literal. -/
def matchTimeAt (s : List Char) : Option TimeCaps :=
  if ("time=".data).isPrefixOf s then
    let rest := dropWS (s.drop 5)
    let p := takeDigits rest
    if p.1 = [] then none
    else
      match p.2 with
      | ':' :: a :: b :: ':' :: x :: y :: '.' :: r4 =>
        if a.isDigit && b.isDigit && x.isDigit && y.isDigit then
          let q := takeDigits r4
          if q.1 = [] then none
          else some ⟨p.1, [a, b], [x, y], q.1⟩
        else none
      | _ => none
  else none

/-- Leftmost match of the `time=` pattern anywhere in `s`. -/
def scanTime : List Char → Option TimeCaps
  | [] => matchTimeAt []
  | c :: cs =>
    match matchTimeAt (c :: cs) with
    | some t => some t
    | none => scanTime cs

/-- `strings.Contains(line, pat)`. -/
def containsSeq (pat : List Char) : List Char → Bool
  | [] => pat.isPrefixOf []
  | c :: cs => pat.isPrefixOf (c :: cs) || containsSeq pat cs

/-- Numeric value of a digit run. -/
def digitsToNat (ds : List Char) : Nat :=
  ds.foldl (fun n c => n * 10 + (c.toNat - '0'.toNat)) 0

/-- `strconv.ParseUint(s, 10, 64)` on a capture (all digits by
construction): fails exactly on the empty string or a value outside
`uint64`. -/
def parseUint64 (ds : List Char) : Option Nat :=
  if ds = [] then none
  else if digitsToNat ds < uint64Mod then some (digitsToNat ds) else none

/-- Largest `int64` value. -/
def maxInt64 : Nat := 2 ^ 63 - 1

/-- `strconv.Atoi` on a digit run with the error discarded, as the
source does for the `time=` groups: on a range error Go's `ParseInt`
returns the clamped bound, which `Atoi` passes through. -/
def atoiClamped (ds : List Char) : Int :=
  if digitsToNat ds ≤ maxInt64 then (digitsToNat ds : Int) else (maxInt64 : Int)

/-- Two's-complement wrapping of Go `int` (64-bit) arithmetic. -/
def wrapInt64 (z : Int) : Int :=
  (z + 2 ^ 63) % 2 ^ 64 - 2 ^ 63

/-- `strconv.ParseFloat` on a `[0-9\.]+` capture, with the value kept
as an exact rational: syntax errors are exactly more than one dot or
no digit at all.  (Double rounding and the float range error are not
modelled; no claim depends on them.) -/
def parseGoFloat (cs : List Char) : Option ℚ :=
  let ip := cs.takeWhile Char.isDigit
  match cs.drop ip.length with
  | [] => if ip = [] then none else some (digitsToNat ip : ℚ)
  | '.' :: fr =>
    if fr.all Char.isDigit then
      if ip = [] ∧ fr = [] then none
      else some ((digitsToNat ip : ℚ) + (digitsToNat fr : ℚ) / ((10 : ℚ) ^ fr.length))
    else none
  | _ => none

/-- The fractional part computed for a `time=` match: `ParseUint` of
the fraction digits divided by `10^len`, and `0` when `ParseUint`
fails (its error is swallowed, leaving `frac = 0.0`). -/
def timeFrac (fr : List Char) : ℚ :=
  match parseUint64 fr with
  | some x => (x : ℚ) / ((10 : ℚ) ^ fr.length)
  | none => 0

/-- The seconds value computed for a `time=` match:
`float64(h*3600+mm*60+s) + frac` with Go `int` arithmetic. -/
def timeOfCaps (t : TimeCaps) : ℚ :=
  (wrapInt64 (atoiClamped t.hh * 3600 + atoiClamped t.mm * 60 + atoiClamped t.ss) : ℚ)
    + timeFrac t.fr

/-- The progress snapshot (`parse.Progress`); `uint64` fields as
`Nat`, `float64` fields as exact `ℚ`. -/
structure Progress where
  Frame : Nat
  Size : Nat
  Time : ℚ
  Speed : ℚ
  Drop : Nat
  Dup : Nat
  Quantizer : ℚ
deriving DecidableEq

/-- The zero snapshot (`Progress{}`), also the result of
`ResetStats`. -/
def Progress.empty : Progress :=
  ⟨0, 0, 0, 0, 0, 0, 0⟩

/-- Value of the `frame=\s*([0-9]+)` capture after `ParseUint`. -/
def frameVal (cs : List Char) : Option Nat :=
  (scanNum "frame=".data [] cs).bind parseUint64

/-- Value of the `q=\s*([0-9\.]+)` capture after `ParseFloat`. -/
def quantizerVal (cs : List Char) : Option ℚ :=
  (scanFloat "q=".data [] cs).bind parseGoFloat

/-- Value of the `size=\s*([0-9]+)kB` capture after `ParseUint`. -/
def sizeKBVal (cs : List Char) : Option Nat :=
  (scanNum "size=".data "kB".data cs).bind parseUint64

/-- Value of the `total_size=\s*([0-9]+)` capture after `ParseUint`. -/
def sizeBytesVal (cs : List Char) : Option Nat :=
  (scanNum "total_size=".data [] cs).bind parseUint64

/-- Value of the `out_time_ms=\s*([0-9]+)` capture after
`ParseUint`. -/
def timeMsVal (cs : List Char) : Option Nat :=
  (scanNum "out_time_ms=".data [] cs).bind parseUint64

/-- Value of the `speed=\s*([0-9\.]+)x` capture after `ParseFloat`. -/
def speedVal (cs : List Char) : Option ℚ :=
  (scanFloat "speed=".data "x".data cs).bind parseGoFloat

/-- Value of the first nonempty `drop=`/`drop_frames=` group after
`ParseUint`. -/
def dropVal (cs : List Char) : Option Nat :=
  (scanAltNum "drop=".data "drop_frames=".data cs).bind parseUint64

/-- Value of the first nonempty `dup=`/`dup_frames=` group after
`ParseUint`. -/
def dupVal (cs : List Char) : Option Nat :=
  (scanAltNum "dup=".data "dup_frames=".data cs).bind parseUint64

/-- The `frame` update block of `parser.Parse`: set the field when the
regex matched and `ParseUint` succeeded, otherwise leave it. -/
def updFrame (cs : List Char) (pr : Progress) : Progress :=
  match frameVal cs with
  | some x => { pr with Frame := x }
  | none => pr

/-- The `q=` update block of `parser.Parse`. -/
def updQuantizer (cs : List Char) (pr : Progress) : Progress :=
  match quantizerVal cs with
  | some x => { pr with Quantizer := x }
  | none => pr

/-- The `size=...kB` update block of `parser.Parse`: kilobytes
converted by `x * 1024` in Go `uint64` arithmetic. -/
def updSizeKB (cs : List Char) (pr : Progress) : Progress :=
  match sizeKBVal cs with
  | some x => { pr with Size := x * 1024 % uint64Mod }
  | none => pr

/-- The `total_size=` update block of `parser.Parse` (already
bytes). -/
def updSizeBytes (cs : List Char) (pr : Progress) : Progress :=
  match sizeBytesVal cs with
  | some x => { pr with Size := x }
  | none => pr

/-- The `time=` update block of `parser.Parse`. -/
def updTime (cs : List Char) (pr : Progress) : Progress :=
  match scanTime cs with
  | some t => { pr with Time := timeOfCaps t }
  | none => pr

/-- The `out_time_ms=` update block of `parser.Parse`: the value is
microseconds, divided by `1e6`. -/
def updTimeMs (cs : List Char) (pr : Progress) : Progress :=
  match timeMsVal cs with
  | some x => { pr with Time := (x : ℚ) / 1000000 }
  | none => pr

/-- The `speed=` update block of `parser.Parse`. -/
def updSpeed (cs : List Char) (pr : Progress) : Progress :=
  match speedVal cs with
  | some x => { pr with Speed := x }
  | none => pr

/-- The `drop=`/`drop_frames=` update block of `parser.Parse`. -/
def updDrop (cs : List Char) (pr : Progress) : Progress :=
  match dropVal cs with
  | some x => { pr with Drop := x }
  | none => pr

/-- The `dup=`/`dup_frames=` update block of `parser.Parse`. -/
def updDup (cs : List Char) (pr : Progress) : Progress :=
  match dupVal cs with
  | some x => { pr with Dup := x }
  | none => pr

/-- The nine field-update blocks of `parser.Parse`, in source
order. -/
def applyUpdates (cs : List Char) (pr : Progress) : Progress :=
  updDup cs (updDrop cs (updSpeed cs (updTimeMs cs (updTime cs
    (updSizeBytes cs (updSizeKB cs (updQuantizer cs (updFrame cs pr))))))))

/-- `parser.Parse` from the source, restricted to the progress
snapshot and the return value.  (Every line is also appended to the
log ring with a wall-clock timestamp; no claim under scrutiny touches
the ring, so it is not modelled here.)  A line without the token
`frame=` returns `0` and leaves the snapshot alone; a progress line
applies the nine field updates in source order and returns the stored
`Frame` after the update. -/
def parseLine (pr : Progress) (line : String) : Progress × Nat :=
  let cs := line.data
  if containsSeq "frame=".data cs then
    let pr1 := applyUpdates cs pr
    (pr1, pr1.Frame)
  else (pr, 0)

/-! ## Address validator (Go `ffmpeg.validator`)

Compiled regular expressions are modelled as opaque match predicates
`String → Bool`; the claims about the validator quantify over the
expressions, not over regex syntax. -/

/-- The two ordered expression lists of `ffmpeg.validator`. -/
structure GoValidator where
  allow : List (String → Bool)
  block : List (String → Bool)

/-- A `for` loop over expressions returning `true` on the first
match (the shape of both loops in `validator.IsValid`). -/
def anyExprMatches : List (String → Bool) → String → Bool
  | [], _ => false
  | e :: es, text => if e text then true else anyExprMatches es text

/-- `validator.IsValid` from the source: any block match returns
`false`; with an empty allow list return `true`; otherwise return
whether some allow expression matches. -/
def IsValid (v : GoValidator) (text : String) : Bool :=
  if anyExprMatches v.block text then false
  else if v.allow.length = 0 then true
  else anyExprMatches v.allow text

/-! ## Task configuration and command derivation (Go package `task`) -/

/-- `task.ConfigIO` (per-input/per-output entry).  (The name is
adjusted to Lean casing.) -/
structure ConfigIo where
  ID : String
  Address : String
  Options : List String
deriving DecidableEq

/-- `task.Config`. `uint64` durations/limits as `Nat`, the `float64`
CPU limit as `ℚ`. -/
structure Config where
  ID : String
  Reference : String
  Input : List ConfigIo
  Output : List ConfigIo
  Options : List String
  Reconnect : Bool
  ReconnectDelay : Nat
  Autostart : Bool
  StaleTimeout : Nat
  LimitCPU : ℚ
  LimitMemory : Nat
  LimitWaitFor : Nat
deriving DecidableEq

/-- `Config.CreateCommand` from the source: global options, then per
input its options followed by `-i` and its address, then per output
its options followed by its address, in slice order (the three Go
`append` loops become folds). -/
def CreateCommand (c : Config) : List String :=
  let cmd : List String := [] ++ c.Options
  let cmd := c.Input.foldl (fun acc i => acc ++ i.Options ++ ["-i", i.Address]) cmd
  c.Output.foldl (fun acc o => acc ++ o.Options ++ [o.Address]) cmd

/-! ## Task store (Go `task.store`) -/

/-- The error values of package `task` (`ErrNotFound` etc.). -/
inductive StoreErr where
  | notFound
  | taskExists
  | invalidConfig
  | invalidInputAddress
  | invalidOutputAddress
deriving DecidableEq

/-- `task.Task` as far as the store mutates it.  `Running` models
`t.proc.IsRunning()`; a freshly created process starts in state
`finished`, hence not running (asynchronous autostart is a later
effect of another goroutine).  The supervisor/parser handles
themselves carry no data the claims inspect. -/
structure GoTask where
  ID : String
  Reference : String
  Config : Config
  CreatedAt : Int
  UpdatedAt : Int
  Order : String
  Running : Bool
deriving DecidableEq

/-- Lookup in the store's task map (Go `s.tasks[id]`), modelled as an
association list. -/
def lookupTask : List (String × GoTask) → String → Option GoTask
  | [], _ => none
  | (k, t) :: rest, id => if k = id then some t else lookupTask rest id

/-- In-place replacement of the entry under an existing key, as
`store.Update` mutates the task held in the map. -/
def replaceTask : List (String × GoTask) → String → GoTask → List (String × GoTask)
  | [], _, _ => []
  | (k, t) :: rest, id, t' =>
    if k = id then (id, t') :: rest else (k, t) :: replaceTask rest id t'

/-- `store.Add` from the source: assign a fresh ID when empty; require
at least one input and one output; validate every input address and
every output address (the loop returning on the first rejected
address is the `all` check, the error being the same for every
rejected element); refuse an existing ID; otherwise build the task
and insert it.  `freshId` stands for `shortuuid.New()` and `now` for
`time.Now().Unix()`.  `s.ffmpeg.New` cannot fail here (the binary was
resolved at construction), and the asynchronous autostart goroutine
is not modelled; `Autostart` only sets `Order`. -/
def storeAdd (validIn validOut : String → Bool) (freshId : String) (now : Int)
    (tasks : List (String × GoTask)) (config : Config) :
    Except StoreErr GoTask × List (String × GoTask) :=
  let config := if config.ID.length = 0 then { config with ID := freshId } else config
  if config.Input.length = 0 ∨ config.Output.length = 0 then
    (.error .invalidConfig, tasks)
  else if config.Input.all (fun i => validIn i.Address) = false then
    (.error .invalidInputAddress, tasks)
  else if config.Output.all (fun o => validOut o.Address) = false then
    (.error .invalidOutputAddress, tasks)
  else if (lookupTask tasks config.ID).isSome then
    (.error .taskExists, tasks)
  else
    let task : GoTask :=
      { ID := config.ID
        Reference := config.Reference
        Config := config
        CreatedAt := now
        UpdatedAt := now
        Order := if config.Autostart then "start" else "stop"
        Running := false }
    (.ok task, tasks ++ [(config.ID, task)])

/-- `store.Update` from the source: require an existing task; record
`wasRunning` and stop the old child synchronously (an effect on the
old process only); overwrite the supplied config's `ID` with `id` and
its `Reference` with the task's current reference; revalidate the
addresses; install the new config and a fresh parser/process on the
task; order a start when the task was running or the new config says
autostart. -/
def storeUpdate (validIn validOut : String → Bool) (now : Int)
    (tasks : List (String × GoTask)) (id : String) (config : Config) :
    Except StoreErr GoTask × List (String × GoTask) :=
  match lookupTask tasks id with
  | none => (.error .notFound, tasks)
  | some t =>
    let wasRunning := t.Running
    let config := { config with ID := id, Reference := t.Reference }
    if config.Input.all (fun i => validIn i.Address) = false then
      (.error .invalidInputAddress, tasks)
    else if config.Output.all (fun o => validOut o.Address) = false then
      (.error .invalidOutputAddress, tasks)
    else
      let t' : GoTask :=
        { t with
          Config := config
          UpdatedAt := now
          Running := false
          Order := if wasRunning || config.Autostart then "start" else t.Order }
      (.ok t', replaceTask tasks id t')

/-! ## Supervisor start path (Go `process.Start` / `process.start`) -/

/-- The supervisor state a lifecycle operation manipulates: the state
machine cell, the order, the reconnect policy and pending timer, the
stale timer, and the lines pushed into the parser.  (The OS process,
pipes, goroutines and callbacks are external effects; the spawn
outcome is supplied as an oracle.) -/
structure ProcState where
  state : stateType
  states : States
  order : String
  reconnEnable : Bool
  reconnPending : Bool
  staleTimeout : Nat
  staleActive : Bool
  parsed : List String
deriving DecidableEq

/-- Outcome of the spawn attempt inside `process.start`: the
`StderrPipe` call fails, `cmd.Start` fails, or the child starts. -/
inductive SpawnOutcome where
  | pipeFail (msg : String)
  | startFail (msg : String)
  | ok
deriving DecidableEq

/-- Apply `p.setState(next)` discarding the returned error, exactly as
`process.start` does. -/
def applySetState (p : ProcState) (next : stateType) : ProcState :=
  let r := setState p.state next p.states
  { p with state := r.1.1, states := r.1.2 }

/-- `process.start` (lower case) from the source: no-op while running;
otherwise cancel any pending reconnect, move to `starting`, and spawn.
On a pipe or start failure: move to `failed`, push the error text into
the parser, schedule a reconnect per policy (`reconnect()` arms the
timer only when the policy is enabled), and return the error.  On
success: move to `running` and arm the staler when a stale timeout is
configured (the sampler start, `OnStart` callback and reader goroutine
are external effects). -/
def startInternal (sp : SpawnOutcome) (p : ProcState) : ProcState × Option String :=
  if p.state.isRunningState then (p, none)
  else
    let p := { p with reconnPending := false }
    let p := applySetState p .starting
    match sp with
    | .pipeFail msg =>
      let p := applySetState p .failed
      let p := { p with parsed := p.parsed ++ [msg] }
      let p := if p.reconnEnable then { p with reconnPending := true } else p
      (p, some msg)
    | .startFail msg =>
      let p := applySetState p .failed
      let p := { p with parsed := p.parsed ++ [msg] }
      let p := if p.reconnEnable then { p with reconnPending := true } else p
      (p, some msg)
    | .ok =>
      let p := applySetState p .running
      let p := if p.staleTimeout ≠ 0 then { p with staleActive := true } else p
      (p, none)

/-- `process.Start` from the source: under the order lock, no-op when
the order is already `start`, otherwise set the order to `start` and
run `start`. -/
def StartOp (sp : SpawnOutcome) (p : ProcState) : ProcState × Option String :=
  if p.order = "start" then (p, none)
  else startInternal sp { p with order := "start" }

/-! ## Concrete fixtures used by witness statements -/

/-- A progress snapshot with a previously recorded frame. -/
def progressFrame7 : Progress :=
  { Progress.empty with Frame := 7 }

/-- An idle supervisor: initial state, order `stop`, reconnect
enabled. -/
def procIdle : ProcState :=
  { state := .finished
    states := States.zero
    order := "stop"
    reconnEnable := true
    reconnPending := false
    staleTimeout := 0
    staleActive := false
    parsed := [] }

/-- A validator expression matching everything. -/
def allowAll : String → Bool := fun _ => true

/-- A validator expression matching nothing. -/
def rejectAll : String → Bool := fun _ => false

/-- A one-input entry. -/
def ioIn : ConfigIo := ⟨"i1", "/data/in.mp4", []⟩

/-- A one-output entry. -/
def ioOut : ConfigIo := ⟨"o1", "/data/out.mp4", []⟩

/-- A minimal valid config. -/
def cfgBase : Config :=
  ⟨"t1", "ref", [ioIn], [ioOut], [], false, 0, false, 0, 0, 0, 0⟩

/-- `cfgBase` with no outputs. -/
def cfgNoOutput : Config :=
  { cfgBase with Output := [] }

/-- `cfgBase` carrying a different reference. -/
def cfgOtherRef : Config :=
  { cfgBase with Reference := "other" }

/-- The task the store builds for `cfgBase`. -/
def taskBase : GoTask :=
  ⟨"t1", "ref", cfgBase, 0, 0, "stop", false⟩

/-- The task produced by updating `taskBase` with `cfgOtherRef` at
time 5: the installed config keeps the task's original reference. -/
def taskAfterUpdate : GoTask :=
  { taskBase with
    Config := { cfgOtherRef with ID := "t1", Reference := "ref" }
    UpdatedAt := 5
    Running := false
    Order := "stop" }

/-! ## Parser helper lemmas

Each update block of `parser.Parse` touches exactly one snapshot
field and leaves the snapshot alone when its pattern or numeric parse
failed. -/

theorem updFrame_Size (cs : List Char) (pr : Progress) :
    (updFrame cs pr).Size = pr.Size := by
  unfold updFrame; cases frameVal cs <;> rfl

theorem updFrame_Time (cs : List Char) (pr : Progress) :
    (updFrame cs pr).Time = pr.Time := by
  unfold updFrame; cases frameVal cs <;> rfl

theorem updFrame_Speed (cs : List Char) (pr : Progress) :
    (updFrame cs pr).Speed = pr.Speed := by
  unfold updFrame; cases frameVal cs <;> rfl

theorem updFrame_Drop (cs : List Char) (pr : Progress) :
    (updFrame cs pr).Drop = pr.Drop := by
  unfold updFrame; cases frameVal cs <;> rfl

theorem updFrame_Dup (cs : List Char) (pr : Progress) :
    (updFrame cs pr).Dup = pr.Dup := by
  unfold updFrame; cases frameVal cs <;> rfl

theorem updFrame_Quantizer (cs : List Char) (pr : Progress) :
    (updFrame cs pr).Quantizer = pr.Quantizer := by
  unfold updFrame; cases frameVal cs <;> rfl

theorem updFrame_noMatch (cs : List Char) (pr : Progress) (h : frameVal cs = none) :
    updFrame cs pr = pr := by
  unfold updFrame; rw [h]

theorem updQuantizer_Frame (cs : List Char) (pr : Progress) :
    (updQuantizer cs pr).Frame = pr.Frame := by
  unfold updQuantizer; cases quantizerVal cs <;> rfl

theorem updQuantizer_Size (cs : List Char) (pr : Progress) :
    (updQuantizer cs pr).Size = pr.Size := by
  unfold updQuantizer; cases quantizerVal cs <;> rfl

theorem updQuantizer_Time (cs : List Char) (pr : Progress) :
    (updQuantizer cs pr).Time = pr.Time := by
  unfold updQuantizer; cases quantizerVal cs <;> rfl

theorem updQuantizer_Speed (cs : List Char) (pr : Progress) :
    (updQuantizer cs pr).Speed = pr.Speed := by
  unfold updQuantizer; cases quantizerVal cs <;> rfl

theorem updQuantizer_Drop (cs : List Char) (pr : Progress) :
    (updQuantizer cs pr).Drop = pr.Drop := by
  unfold updQuantizer; cases quantizerVal cs <;> rfl

theorem updQuantizer_Dup (cs : List Char) (pr : Progress) :
    (updQuantizer cs pr).Dup = pr.Dup := by
  unfold updQuantizer; cases quantizerVal cs <;> rfl

theorem updQuantizer_noMatch (cs : List Char) (pr : Progress) (h : quantizerVal cs = none) :
    updQuantizer cs pr = pr := by
  unfold updQuantizer; rw [h]

theorem updSizeKB_Frame (cs : List Char) (pr : Progress) :
    (updSizeKB cs pr).Frame = pr.Frame := by
  unfold updSizeKB; cases sizeKBVal cs <;> rfl

theorem updSizeKB_Time (cs : List Char) (pr : Progress) :
    (updSizeKB cs pr).Time = pr.Time := by
  unfold updSizeKB; cases sizeKBVal cs <;> rfl

theorem updSizeKB_Speed (cs : List Char) (pr : Progress) :
    (updSizeKB cs pr).Speed = pr.Speed := by
  unfold updSizeKB; cases sizeKBVal cs <;> rfl

theorem updSizeKB_Drop (cs : List Char) (pr : Progress) :
    (updSizeKB cs pr).Drop = pr.Drop := by
  unfold updSizeKB; cases sizeKBVal cs <;> rfl

theorem updSizeKB_Dup (cs : List Char) (pr : Progress) :
    (updSizeKB cs pr).Dup = pr.Dup := by
  unfold updSizeKB; cases sizeKBVal cs <;> rfl

theorem updSizeKB_Quantizer (cs : List Char) (pr : Progress) :
    (updSizeKB cs pr).Quantizer = pr.Quantizer := by
  unfold updSizeKB; cases sizeKBVal cs <;> rfl

theorem updSizeKB_noMatch (cs : List Char) (pr : Progress) (h : sizeKBVal cs = none) :
    updSizeKB cs pr = pr := by
  unfold updSizeKB; rw [h]

theorem updSizeBytes_Frame (cs : List Char) (pr : Progress) :
    (updSizeBytes cs pr).Frame = pr.Frame := by
  unfold updSizeBytes; cases sizeBytesVal cs <;> rfl

theorem updSizeBytes_Time (cs : List Char) (pr : Progress) :
    (updSizeBytes cs pr).Time = pr.Time := by
  unfold updSizeBytes; cases sizeBytesVal cs <;> rfl

theorem updSizeBytes_Speed (cs : List Char) (pr : Progress) :
    (updSizeBytes cs pr).Speed = pr.Speed := by
  unfold updSizeBytes; cases sizeBytesVal cs <;> rfl

theorem updSizeBytes_Drop (cs : List Char) (pr : Progress) :
    (updSizeBytes cs pr).Drop = pr.Drop := by
  unfold updSizeBytes; cases sizeBytesVal cs <;> rfl

theorem updSizeBytes_Dup (cs : List Char) (pr : Progress) :
    (updSizeBytes cs pr).Dup = pr.Dup := by
  unfold updSizeBytes; cases sizeBytesVal cs <;> rfl

theorem updSizeBytes_Quantizer (cs : List Char) (pr : Progress) :
    (updSizeBytes cs pr).Quantizer = pr.Quantizer := by
  unfold updSizeBytes; cases sizeBytesVal cs <;> rfl

theorem updSizeBytes_noMatch (cs : List Char) (pr : Progress) (h : sizeBytesVal cs = none) :
    updSizeBytes cs pr = pr := by
  unfold updSizeBytes; rw [h]

theorem updTime_Frame (cs : List Char) (pr : Progress) :
    (updTime cs pr).Frame = pr.Frame := by
  unfold updTime; cases scanTime cs <;> rfl

theorem updTime_Size (cs : List Char) (pr : Progress) :
    (updTime cs pr).Size = pr.Size := by
  unfold updTime; cases scanTime cs <;> rfl

theorem updTime_Speed (cs : List Char) (pr : Progress) :
    (updTime cs pr).Speed = pr.Speed := by
  unfold updTime; cases scanTime cs <;> rfl

theorem updTime_Drop (cs : List Char) (pr : Progress) :
    (updTime cs pr).Drop = pr.Drop := by
  unfold updTime; cases scanTime cs <;> rfl

theorem updTime_Dup (cs : List Char) (pr : Progress) :
    (updTime cs pr).Dup = pr.Dup := by
  unfold updTime; cases scanTime cs <;> rfl

theorem updTime_Quantizer (cs : List Char) (pr : Progress) :
    (updTime cs pr).Quantizer = pr.Quantizer := by
  unfold updTime; cases scanTime cs <;> rfl

theorem updTime_noMatch (cs : List Char) (pr : Progress) (h : scanTime cs = none) :
    updTime cs pr = pr := by
  unfold updTime; rw [h]

theorem updTimeMs_Frame (cs : List Char) (pr : Progress) :
    (updTimeMs cs pr).Frame = pr.Frame := by
  unfold updTimeMs; cases timeMsVal cs <;> rfl

theorem updTimeMs_Size (cs : List Char) (pr : Progress) :
    (updTimeMs cs pr).Size = pr.Size := by
  unfold updTimeMs; cases timeMsVal cs <;> rfl

theorem updTimeMs_Speed (cs : List Char) (pr : Progress) :
    (updTimeMs cs pr).Speed = pr.Speed := by
  unfold updTimeMs; cases timeMsVal cs <;> rfl

theorem updTimeMs_Drop (cs : List Char) (pr : Progress) :
    (updTimeMs cs pr).Drop = pr.Drop := by
  unfold updTimeMs; cases timeMsVal cs <;> rfl

theorem updTimeMs_Dup (cs : List Char) (pr : Progress) :
    (updTimeMs cs pr).Dup = pr.Dup := by
  unfold updTimeMs; cases timeMsVal cs <;> rfl

theorem updTimeMs_Quantizer (cs : List Char) (pr : Progress) :
    (updTimeMs cs pr).Quantizer = pr.Quantizer := by
  unfold updTimeMs; cases timeMsVal cs <;> rfl

theorem updTimeMs_noMatch (cs : List Char) (pr : Progress) (h : timeMsVal cs = none) :
    updTimeMs cs pr = pr := by
  unfold updTimeMs; rw [h]

theorem updSpeed_Frame (cs : List Char) (pr : Progress) :
    (updSpeed cs pr).Frame = pr.Frame := by
  unfold updSpeed; cases speedVal cs <;> rfl

theorem updSpeed_Size (cs : List Char) (pr : Progress) :
    (updSpeed cs pr).Size = pr.Size := by
  unfold updSpeed; cases speedVal cs <;> rfl

theorem updSpeed_Time (cs : List Char) (pr : Progress) :
    (updSpeed cs pr).Time = pr.Time := by
  unfold updSpeed; cases speedVal cs <;> rfl

theorem updSpeed_Drop (cs : List Char) (pr : Progress) :
    (updSpeed cs pr).Drop = pr.Drop := by
  unfold updSpeed; cases speedVal cs <;> rfl

theorem updSpeed_Dup (cs : List Char) (pr : Progress) :
    (updSpeed cs pr).Dup = pr.Dup := by
  unfold updSpeed; cases speedVal cs <;> rfl

theorem updSpeed_Quantizer (cs : List Char) (pr : Progress) :
    (updSpeed cs pr).Quantizer = pr.Quantizer := by
  unfold updSpeed; cases speedVal cs <;> rfl

theorem updSpeed_noMatch (cs : List Char) (pr : Progress) (h : speedVal cs = none) :
    updSpeed cs pr = pr := by
  unfold updSpeed; rw [h]

theorem updDrop_Frame (cs : List Char) (pr : Progress) :
    (updDrop cs pr).Frame = pr.Frame := by
  unfold updDrop; cases dropVal cs <;> rfl

theorem updDrop_Size (cs : List Char) (pr : Progress) :
    (updDrop cs pr).Size = pr.Size := by
  unfold updDrop; cases dropVal cs <;> rfl

theorem updDrop_Time (cs : List Char) (pr : Progress) :
    (updDrop cs pr).Time = pr.Time := by
  unfold updDrop; cases dropVal cs <;> rfl

theorem updDrop_Speed (cs : List Char) (pr : Progress) :
    (updDrop cs pr).Speed = pr.Speed := by
  unfold updDrop; cases dropVal cs <;> rfl

theorem updDrop_Dup (cs : List Char) (pr : Progress) :
    (updDrop cs pr).Dup = pr.Dup := by
  unfold updDrop; cases dropVal cs <;> rfl

theorem updDrop_Quantizer (cs : List Char) (pr : Progress) :
    (updDrop cs pr).Quantizer = pr.Quantizer := by
  unfold updDrop; cases dropVal cs <;> rfl

theorem updDrop_noMatch (cs : List Char) (pr : Progress) (h : dropVal cs = none) :
    updDrop cs pr = pr := by
  unfold updDrop; rw [h]

theorem updDup_Frame (cs : List Char) (pr : Progress) :
    (updDup cs pr).Frame = pr.Frame := by
  unfold updDup; cases dupVal cs <;> rfl

theorem updDup_Size (cs : List Char) (pr : Progress) :
    (updDup cs pr).Size = pr.Size := by
  unfold updDup; cases dupVal cs <;> rfl

theorem updDup_Time (cs : List Char) (pr : Progress) :
    (updDup cs pr).Time = pr.Time := by
  unfold updDup; cases dupVal cs <;> rfl

theorem updDup_Speed (cs : List Char) (pr : Progress) :
    (updDup cs pr).Speed = pr.Speed := by
  unfold updDup; cases dupVal cs <;> rfl

theorem updDup_Drop (cs : List Char) (pr : Progress) :
    (updDup cs pr).Drop = pr.Drop := by
  unfold updDup; cases dupVal cs <;> rfl

theorem updDup_Quantizer (cs : List Char) (pr : Progress) :
    (updDup cs pr).Quantizer = pr.Quantizer := by
  unfold updDup; cases dupVal cs <;> rfl

theorem updDup_noMatch (cs : List Char) (pr : Progress) (h : dupVal cs = none) :
    updDup cs pr = pr := by
  unfold updDup; rw [h]

theorem updFrame_Frame_val (cs : List Char) (pr : Progress) :
    (updFrame cs pr).Frame = (frameVal cs).getD pr.Frame := by
  unfold updFrame; cases frameVal cs <;> rfl

theorem applyUpdates_Frame (cs : List Char) (pr : Progress) :
    (applyUpdates cs pr).Frame = (frameVal cs).getD pr.Frame := by
  unfold applyUpdates
  rw [updDup_Frame, updDrop_Frame, updSpeed_Frame, updTimeMs_Frame, updTime_Frame,
    updSizeBytes_Frame, updSizeKB_Frame, updQuantizer_Frame, updFrame_Frame_val]

theorem applyUpdates_Size_some (cs : List Char) (pr : Progress) (x : Nat)
    (h : sizeBytesVal cs = some x) :
    (applyUpdates cs pr).Size = x := by
  unfold applyUpdates
  rw [updDup_Size, updDrop_Size, updSpeed_Size, updTimeMs_Size, updTime_Size]
  unfold updSizeBytes; rw [h]

theorem applyUpdates_Time_some (cs : List Char) (pr : Progress) (x : Nat)
    (h : timeMsVal cs = some x) :
    (applyUpdates cs pr).Time = (x : ℚ) / 1000000 := by
  unfold applyUpdates
  rw [updDup_Time, updDrop_Time, updSpeed_Time]
  unfold updTimeMs; rw [h]

theorem applyUpdates_Quantizer_none (cs : List Char) (pr : Progress)
    (h : quantizerVal cs = none) :
    (applyUpdates cs pr).Quantizer = pr.Quantizer := by
  unfold applyUpdates
  rw [updDup_Quantizer, updDrop_Quantizer, updSpeed_Quantizer, updTimeMs_Quantizer,
    updTime_Quantizer, updSizeBytes_Quantizer, updSizeKB_Quantizer,
    updQuantizer_noMatch _ _ h, updFrame_Quantizer]

theorem applyUpdates_Size_none (cs : List Char) (pr : Progress)
    (h1 : sizeKBVal cs = none) (h2 : sizeBytesVal cs = none) :
    (applyUpdates cs pr).Size = pr.Size := by
  unfold applyUpdates
  rw [updDup_Size, updDrop_Size, updSpeed_Size, updTimeMs_Size, updTime_Size,
    updSizeBytes_noMatch _ _ h2, updSizeKB_noMatch _ _ h1,
    updQuantizer_Size, updFrame_Size]

theorem applyUpdates_Time_none (cs : List Char) (pr : Progress)
    (h1 : scanTime cs = none) (h2 : timeMsVal cs = none) :
    (applyUpdates cs pr).Time = pr.Time := by
  unfold applyUpdates
  rw [updDup_Time, updDrop_Time, updSpeed_Time,
    updTimeMs_noMatch _ _ h2, updTime_noMatch _ _ h1,
    updSizeBytes_Time, updSizeKB_Time, updQuantizer_Time, updFrame_Time]

theorem applyUpdates_Speed_none (cs : List Char) (pr : Progress)
    (h : speedVal cs = none) :
    (applyUpdates cs pr).Speed = pr.Speed := by
  unfold applyUpdates
  rw [updDup_Speed, updDrop_Speed, updSpeed_noMatch _ _ h, updTimeMs_Speed,
    updTime_Speed, updSizeBytes_Speed, updSizeKB_Speed, updQuantizer_Speed,
    updFrame_Speed]

theorem applyUpdates_Drop_none (cs : List Char) (pr : Progress)
    (h : dropVal cs = none) :
    (applyUpdates cs pr).Drop = pr.Drop := by
  unfold applyUpdates
  rw [updDup_Drop, updDrop_noMatch _ _ h, updSpeed_Drop, updTimeMs_Drop,
    updTime_Drop, updSizeBytes_Drop, updSizeKB_Drop, updQuantizer_Drop,
    updFrame_Drop]

theorem applyUpdates_Dup_none (cs : List Char) (pr : Progress)
    (h : dupVal cs = none) :
    (applyUpdates cs pr).Dup = pr.Dup := by
  unfold applyUpdates
  rw [updDup_noMatch _ _ h, updDrop_Dup, updSpeed_Dup, updTimeMs_Dup,
    updTime_Dup, updSizeBytes_Dup, updSizeKB_Dup, updQuantizer_Dup,
    updFrame_Dup]

theorem parseLine_not_progress (pr : Progress) (line : String)
    (h : containsSeq "frame=".data line.data = false) :
    parseLine pr line = (pr, 0) := by
  simp [parseLine, h]

theorem parseLine_progress (pr : Progress) (line : String)
    (h : containsSeq "frame=".data line.data = true) :
    parseLine pr line = (applyUpdates line.data pr, (applyUpdates line.data pr).Frame) := by
  simp [parseLine, h]

/-! ## Store, command and validator helper lemmas -/

theorem foldl_append_pair {α : Type} (f g : α → List String) (l : List α) :
    ∀ init : List String,
      l.foldl (fun acc x => acc ++ f x ++ g x) init =
        init ++ l.flatMap (fun x => f x ++ g x) := by
  induction l with
  | nil => intro init; simp
  | cons x xs ih =>
    intro init
    rw [List.foldl_cons, ih]
    simp [List.append_assoc]

theorem anyExprMatches_iff (l : List (String → Bool)) (text : String) :
    anyExprMatches l text = true ↔ ∃ e ∈ l, e text = true := by
  induction l with
  | nil => simp [anyExprMatches]
  | cons e es ih => by_cases h : e text <;> simp [anyExprMatches, h, ih]

theorem lookupTask_replaceTask (tasks : List (String × GoTask)) (id : String)
    (t t' : GoTask) (h : lookupTask tasks id = some t) :
    lookupTask (replaceTask tasks id t') id = some t' := by
  induction tasks with
  | nil => simp [lookupTask] at h
  | cons kv rest ih =>
    obtain ⟨k, tk⟩ := kv
    by_cases hk : k = id
    · simp [lookupTask, replaceTask, hk]
    · simp only [lookupTask, replaceTask, hk, if_false] at h ⊢
      exact ih h

/-! ## Claims -/

/-- C1 counterexample: `setState` commits the transition
`starting → finishing` (reachable when `Stop` arrives while the
supervisor is `starting`) without an error, yet that transition is not
listed in the spec's §4.3 legal-transitions table — so it is false
that every committed transition is one listed in that table. -/
theorem c1_starting_finishing_escapes_spec_table :
    (setState .starting .finishing States.zero).2 = none ∧
    (setState .starting .finishing States.zero).1.1 = .finishing ∧
    specLegal .starting .finishing = false := by
  decide

/-- C1 (amended): the Supervisor's state is always one of the six
members of `stateType` (by construction of the embedding), and
`setState` commits exactly the transitions of the spec's §4.3 table
*plus* `starting → finishing` (`codeLegal`): a committed transition
installs the requested state and increments the destination state's
counter, and any other requested transition returns an error and
leaves the state and all counters unchanged. -/
theorem c1_setState_table (cur next : stateType) (st : States) :
    (codeLegal cur next = true →
      setState cur next st = ((next, st.bump next), none)) ∧
    (codeLegal cur next = false →
      (setState cur next st).1 = (cur, st) ∧ (setState cur next st).2 ≠ none) := by
  cases cur <;> cases next <;>
    simp [setState, codeLegal, specLegal]

/-- Witness for `c1_setState_table`: the legal transition
`finished → starting` commits and counts, and the illegal request
`finished → running` errors out leaving everything unchanged. -/
theorem c1_setState_table_witness :
    (codeLegal .finished .starting = true ∧
      setState .finished .starting States.zero =
        ((.starting, States.zero.bump .starting), none)) ∧
    (codeLegal .finished .running = false ∧
      ((setState .finished .running States.zero).1 = (.finished, States.zero) ∧
        (setState .finished .running States.zero).2 ≠ none)) :=
  ⟨⟨by decide, (c1_setState_table .finished .starting States.zero).1 (by decide)⟩,
   ⟨by decide, (c1_setState_table .finished .running States.zero).2 (by decide)⟩⟩

/-- C2: `CreateCommand` returns exactly the global options, then for
each input (in insertion order) its options, `-i` and its address,
then for each output (in insertion order) its options and its
address; being a pure function it trivially yields the identical list
for identical configs. -/
theorem c2_CreateCommand (c : Config) :
    CreateCommand c =
      c.Options ++ (c.Input.flatMap fun i => i.Options ++ ["-i", i.Address])
        ++ (c.Output.flatMap fun o => o.Options ++ [o.Address]) ∧
    CreateCommand c = CreateCommand c := by
  refine ⟨?_, rfl⟩
  simp only [CreateCommand]
  rw [foldl_append_pair (fun i : ConfigIo => i.Options) (fun i => ["-i", i.Address]),
    foldl_append_pair (fun o : ConfigIo => o.Options) (fun o => [o.Address])]
  simp [List.append_assoc]

/-- C5: the waiter classifies child termination exactly as claimed: a
normal exit with code 0 (for which `cmd.Wait` returns no error) or
code 255 commits `finished`; a normal exit with any other code
commits `failed`; a termination that is not a normal exit (signal, or
a non-exit error from `Wait`) commits `killed`. -/
theorem c5_waiter_classification (code : Int) :
    classifyWait (waitOutcomeOfNormalExit code) =
      (if code = 0 ∨ code = 255 then stateType.finished else stateType.failed) ∧
    classifyWait (some (.exitErr false code)) = .killed ∧
    classifyWait (some .otherErr) = .killed := by
  refine ⟨?_, rfl, rfl⟩
  unfold waitOutcomeOfNormalExit classifyWait
  by_cases h0 : code = 0
  · simp [h0]
  · by_cases h255 : code = 255 <;> simp [h0, h255]

/-- C8: the validator returns invalid as soon as any block expression
matches; otherwise an empty allow list means valid, and a non-empty
allow list means valid exactly when some allow expression matches. -/
theorem c8_validator (v : GoValidator) (text : String) :
    IsValid v text = true ↔
      (∀ e ∈ v.block, e text = false) ∧
      (v.allow = [] ∨ ∃ e ∈ v.allow, e text = true) := by
  unfold IsValid
  have hbI := anyExprMatches_iff v.block text
  have haI := anyExprMatches_iff v.allow text
  by_cases hb : anyExprMatches v.block text = true
  · rw [if_pos hb]
    obtain ⟨e, he, hm⟩ := hbI.mp hb
    constructor
    · intro h
      exact absurd h (by simp)
    · rintro ⟨hall, _⟩
      have h2 := hall e he
      rw [hm] at h2
      exact absurd h2 (by simp)
  · rw [if_neg hb]
    have hblock : ∀ e ∈ v.block, e text = false := by
      intro e he
      by_contra hne
      exact hb (hbI.mpr ⟨e, he, by simpa using hne⟩)
    by_cases ha : v.allow.length = 0
    · rw [if_pos ha]
      have hnil : v.allow = [] := List.eq_nil_of_length_eq_zero ha
      constructor
      · intro _
        exact ⟨hblock, Or.inl hnil⟩
      · intro _
        rfl
    · rw [if_neg ha, haI]
      constructor
      · intro h
        exact ⟨hblock, Or.inr h⟩
      · rintro ⟨-, h | h⟩
        · exact absurd h (by intro hh; exact ha (by simp [hh]))
        · exact h

/-- C3 counterexample: the line `frame=0` contains the token `frame=`
with a parseable frame value (0), yet `Parse` returns 0 — so it is
false that every line with a parseable frame value yields a non-zero
return. -/
theorem c3_frame_zero_returns_zero :
    containsSeq "frame=".data ("frame=0").data = true ∧
    frameVal ("frame=0").data = some 0 ∧
    (parseLine Progress.empty "frame=0").2 = 0 := by
  refine ⟨by decide, by decide, ?_⟩
  rfl

/-- C3 (amended): `Parse` returns 0 for every line that does not
contain the token `frame=`, leaving the snapshot untouched; for a
line containing `frame=` it returns the frame value stored after the
update — the parsed value when the frame field parses, otherwise the
previously stored value — which is therefore non-zero exactly when
that stored frame is non-zero. -/
theorem c3_parse_return (pr : Progress) (line : String) :
    (containsSeq "frame=".data line.data = false → parseLine pr line = (pr, 0)) ∧
    (containsSeq "frame=".data line.data = true →
      (parseLine pr line).2 = (frameVal line.data).getD pr.Frame ∧
      (parseLine pr line).1.Frame = (frameVal line.data).getD pr.Frame) := by
  constructor
  · intro h
    exact parseLine_not_progress pr line h
  · intro h
    rw [parseLine_progress pr line h]
    exact ⟨applyUpdates_Frame line.data pr, applyUpdates_Frame line.data pr⟩

/-- Witness for `c3_parse_return`: a non-progress line returns 0 and
changes nothing; a progress line with frame 7 returns 7. -/
theorem c3_parse_return_witness :
    parseLine Progress.empty "hello" = (Progress.empty, 0) ∧
    (parseLine Progress.empty "frame=7 speed=1.5x").2 = 7 := by
  constructor
  · exact (c3_parse_return Progress.empty "hello").1 (by decide)
  · rw [((c3_parse_return Progress.empty "frame=7 speed=1.5x").2 (by decide)).1]
    decide

/-- C4: on a progress line, the two overrides hold independently:
whenever the `total_size=<int>` field parses, the final size is that
value in bytes (so it overrides any `size=<int>kB` value parsed
earlier in the same pass, whether or not a time override is present),
and whenever the `out_time_ms=<int>` field parses, the final time is
that value divided by 1e6 (overriding any `time=HH:MM:SS.FFF` value,
whether or not a size override is present). -/
theorem c4_latter_field_wins (pr : Progress) (line : String)
    (hf : containsSeq "frame=".data line.data = true) :
    (∀ x, sizeBytesVal line.data = some x → (parseLine pr line).1.Size = x) ∧
    (∀ y, timeMsVal line.data = some y →
      (parseLine pr line).1.Time = (y : ℚ) / 1000000) := by
  rw [parseLine_progress pr line hf]
  exact ⟨fun x hsz => applyUpdates_Size_some line.data pr x hsz,
    fun y htm => applyUpdates_Time_some line.data pr y htm⟩

/-- Witness for `c4_latter_field_wins`: a line with both size forms
and no time override, a line with both time forms and no size
override, and the spec's alternate-format line yielding time 2.5 and
size 4096. -/
theorem c4_latter_field_wins_witness :
    (parseLine Progress.empty "frame=1 size=4kB total_size=5000").1.Size = 5000 ∧
    (parseLine Progress.empty
      "frame=1 time=00:00:01.00 out_time_ms=2500000").1.Time = 5 / 2 ∧
    (parseLine Progress.empty
      "frame=10 out_time_ms=2500000 total_size=4096 speed=2.0x").1.Size = 4096 ∧
    (parseLine Progress.empty
      "frame=10 out_time_ms=2500000 total_size=4096 speed=2.0x").1.Time = 5 / 2 := by
  refine ⟨?_, ?_, ?_, ?_⟩
  · exact (c4_latter_field_wins Progress.empty
      "frame=1 size=4kB total_size=5000" (by decide)).1 5000 (by decide)
  · rw [(c4_latter_field_wins Progress.empty
      "frame=1 time=00:00:01.00 out_time_ms=2500000" (by decide)).2 2500000
      (by decide)]
    norm_num
  · exact (c4_latter_field_wins Progress.empty
      "frame=10 out_time_ms=2500000 total_size=4096 speed=2.0x" (by decide)).1
      4096 (by decide)
  · rw [(c4_latter_field_wins Progress.empty
      "frame=10 out_time_ms=2500000 total_size=4096 speed=2.0x" (by decide)).2
      2500000 (by decide)]
    norm_num

/-- C10: for a line containing `frame=` whose frame field does not
parse, `Parse` leaves the stored frame unchanged and returns it (so
the return is non-zero exactly when an earlier line left a non-zero
frame, and 0 when nothing was recorded since the last `ResetStats`);
likewise every other field whose pattern did not match is left
unchanged. -/
theorem c10_unparseable_frame (pr : Progress) (line : String)
    (hf : containsSeq "frame=".data line.data = true)
    (hnone : frameVal line.data = none) :
    (parseLine pr line).1.Frame = pr.Frame ∧
    (parseLine pr line).2 = pr.Frame ∧
    (quantizerVal line.data = none →
      (parseLine pr line).1.Quantizer = pr.Quantizer) ∧
    (sizeKBVal line.data = none → sizeBytesVal line.data = none →
      (parseLine pr line).1.Size = pr.Size) ∧
    (scanTime line.data = none → timeMsVal line.data = none →
      (parseLine pr line).1.Time = pr.Time) ∧
    (speedVal line.data = none → (parseLine pr line).1.Speed = pr.Speed) ∧
    (dropVal line.data = none → (parseLine pr line).1.Drop = pr.Drop) ∧
    (dupVal line.data = none → (parseLine pr line).1.Dup = pr.Dup) := by
  rw [parseLine_progress pr line hf]
  have hfr : (applyUpdates line.data pr).Frame = pr.Frame := by
    rw [applyUpdates_Frame, hnone]
    rfl
  refine ⟨hfr, hfr, ?_, ?_, ?_, ?_, ?_, ?_⟩
  · intro h
    exact applyUpdates_Quantizer_none line.data pr h
  · intro h1 h2
    exact applyUpdates_Size_none line.data pr h1 h2
  · intro h1 h2
    exact applyUpdates_Time_none line.data pr h1 h2
  · intro h
    exact applyUpdates_Speed_none line.data pr h
  · intro h
    exact applyUpdates_Drop_none line.data pr h
  · intro h
    exact applyUpdates_Dup_none line.data pr h

/-- Witness for `c10_unparseable_frame`: the line `frame=x` (token
present, no digits) returns the previously stored frame 7, and
returns 0 on a snapshot with no recorded frame. -/
theorem c10_unparseable_frame_witness :
    (parseLine progressFrame7 "frame=x").2 = 7 ∧
    (parseLine Progress.empty "frame=x").2 = 0 := by
  constructor
  · rw [(c10_unparseable_frame progressFrame7 "frame=x" (by decide) (by decide)).2.1]
    rfl
  · rw [(c10_unparseable_frame Progress.empty "frame=x" (by decide) (by decide)).2.1]
    rfl

/-- C6: `store.Add` rejects a config with no inputs or no outputs
with `invalid_config`; past that check, a validator-rejected input
(output) address yields `invalid_input_address`
(`invalid_output_address`); past validation, an already-present ID
yields `task_exists`; and every error return leaves the task map
unchanged. -/
theorem c6_storeAdd_errors (validIn validOut : String → Bool) (freshId : String)
    (now : Int) (tasks : List (String × GoTask)) (config : Config) :
    (config.Input = [] ∨ config.Output = [] →
      storeAdd validIn validOut freshId now tasks config =
        (.error .invalidConfig, tasks)) ∧
    (config.Input ≠ [] → config.Output ≠ [] →
      (∃ i ∈ config.Input, validIn i.Address = false) →
      storeAdd validIn validOut freshId now tasks config =
        (.error .invalidInputAddress, tasks)) ∧
    (config.Input ≠ [] → config.Output ≠ [] →
      (∀ i ∈ config.Input, validIn i.Address = true) →
      (∃ o ∈ config.Output, validOut o.Address = false) →
      storeAdd validIn validOut freshId now tasks config =
        (.error .invalidOutputAddress, tasks)) ∧
    (config.Input ≠ [] → config.Output ≠ [] →
      (∀ i ∈ config.Input, validIn i.Address = true) →
      (∀ o ∈ config.Output, validOut o.Address = true) →
      (lookupTask tasks
        (if config.ID.length = 0 then freshId else config.ID)).isSome = true →
      storeAdd validIn validOut freshId now tasks config =
        (.error .taskExists, tasks)) ∧
    (∀ e, (storeAdd validIn validOut freshId now tasks config).1 = .error e →
      (storeAdd validIn validOut freshId now tasks config).2 = tasks) := by
  refine ⟨?_, ?_, ?_, ?_, ?_⟩
  · intro h
    simp only [storeAdd]
    split_ifs <;> simp_all
  · intro h1 h2 h3
    have hIn : config.Input.all (fun i => validIn i.Address) = false := by
      rw [List.all_eq_false]
      obtain ⟨i, hi, hv⟩ := h3
      exact ⟨i, hi, by simp [hv]⟩
    simp only [storeAdd]
    split_ifs <;> simp_all
  · intro h1 h2 hall h3
    have hInT : config.Input.all (fun i => validIn i.Address) = true := by
      rw [List.all_eq_true]
      exact hall
    have hOut : config.Output.all (fun o => validOut o.Address) = false := by
      rw [List.all_eq_false]
      obtain ⟨o, ho, hv⟩ := h3
      exact ⟨o, ho, by simp [hv]⟩
    simp only [storeAdd]
    split_ifs <;> simp_all
  · intro h1 h2 hallIn hallOut hsome
    have hInT : config.Input.all (fun i => validIn i.Address) = true := by
      rw [List.all_eq_true]
      exact hallIn
    have hOutT : config.Output.all (fun o => validOut o.Address) = true := by
      rw [List.all_eq_true]
      exact hallOut
    simp only [storeAdd]
    split_ifs <;> simp_all
  · intro e he
    simp only [storeAdd] at he ⊢
    split_ifs at he ⊢ <;> simp_all

/-- Witness for `c6_storeAdd_errors`: each error branch at a concrete
store, and each error leaving the map unchanged. -/
theorem c6_storeAdd_errors_witness :
    storeAdd allowAll allowAll "f" 0 [] cfgNoOutput =
      (.error .invalidConfig, []) ∧
    storeAdd rejectAll allowAll "f" 0 [] cfgBase =
      (.error .invalidInputAddress, []) ∧
    storeAdd allowAll rejectAll "f" 0 [] cfgBase =
      (.error .invalidOutputAddress, []) ∧
    storeAdd allowAll allowAll "f" 0 [("t1", taskBase)] cfgBase =
      (.error .taskExists, [("t1", taskBase)]) :=
  ⟨(c6_storeAdd_errors allowAll allowAll "f" 0 [] cfgNoOutput).1 (by decide),
   (c6_storeAdd_errors rejectAll allowAll "f" 0 [] cfgBase).2.1
     (by decide) (by decide) (by decide),
   (c6_storeAdd_errors allowAll rejectAll "f" 0 [] cfgBase).2.2.1
     (by decide) (by decide) (by decide) (by decide),
   (c6_storeAdd_errors allowAll allowAll "f" 0 [("t1", taskBase)] cfgBase).2.2.2.1
     (by decide) (by decide) (by decide) (by decide) (by decide)⟩

/-- C7: when the spawn fails before the child is running (pipe
creation or process start), `Start` commits `failed`, pushes the
error text into the parser, schedules a reconnect exactly when the
reconnect policy is enabled, and returns the error. -/
theorem c7_spawn_failure (p : ProcState) (msg : String) (sp : SpawnOutcome)
    (hord : p.order ≠ "start")
    (hnr : p.state.isRunningState = false)
    (hsp : sp = .pipeFail msg ∨ sp = .startFail msg) :
    (StartOp sp p).2 = some msg ∧
    (StartOp sp p).1.state = .failed ∧
    msg ∈ (StartOp sp p).1.parsed ∧
    (StartOp sp p).1.reconnPending = p.reconnEnable ∧
    (StartOp sp p).1.order = "start" := by
  obtain ⟨st, sts, ord, re, rp, sto, sa, pa⟩ := p
  rcases hsp with rfl | rfl <;>
    cases st <;>
    simp_all [StartOp, startInternal, applySetState, setState,
      stateType.isRunningState] <;>
    cases re <;> simp_all

/-- Witness for `c7_spawn_failure`: a failed spawn on an idle
supervisor with reconnect enabled. -/
theorem c7_spawn_failure_witness :
    (StartOp (.startFail "boom") procIdle).2 = some "boom" ∧
    (StartOp (.startFail "boom") procIdle).1.state = .failed ∧
    "boom" ∈ (StartOp (.startFail "boom") procIdle).1.parsed ∧
    (StartOp (.startFail "boom") procIdle).1.reconnPending = procIdle.reconnEnable ∧
    (StartOp (.startFail "boom") procIdle).1.order = "start" :=
  c7_spawn_failure procIdle "boom" (.startFail "boom")
    (by decide) (by decide) (Or.inr rfl)

/-- C9: `store.Update` on an existing task overwrites the supplied
config's `ID` with the task id and its `Reference` with the task's
current reference before installing it; the installed task keeps the
task's reference regardless of the reference carried by the new
config, and every error return leaves the map unchanged. -/
theorem c9_update_preserves_reference (validIn validOut : String → Bool)
    (now : Int) (tasks : List (String × GoTask)) (id : String) (config : Config)
    (t : GoTask) (ht : lookupTask tasks id = some t) :
    (∀ t' m', storeUpdate validIn validOut now tasks id config = (.ok t', m') →
      t'.Reference = t.Reference ∧ t'.Config.Reference = t.Reference ∧
      t'.Config.ID = id ∧ lookupTask m' id = some t') ∧
    (∀ e m', storeUpdate validIn validOut now tasks id config = (.error e, m') →
      m' = tasks) := by
  constructor
  · intro t' m' h
    simp only [storeUpdate, ht] at h
    split_ifs at h
    all_goals
      rw [Prod.mk.injEq] at h
      obtain ⟨hA, hB⟩ := h
      first
        | exact Except.noConfusion hA
        | (injection hA with hA
           subst hA
           subst hB
           exact ⟨rfl, rfl, rfl, lookupTask_replaceTask tasks id t _ ht⟩)
  · intro e m' h
    simp only [storeUpdate, ht] at h
    split_ifs at h <;> simp_all

/-- Witness for `c9_update_preserves_reference`: updating `taskBase`
with a config carrying reference "other" installs a task that still
has reference "ref". -/
theorem c9_update_preserves_reference_witness :
    storeUpdate allowAll allowAll 5 [("t1", taskBase)] "t1" cfgOtherRef =
      (.ok taskAfterUpdate, [("t1", taskAfterUpdate)]) ∧
    taskAfterUpdate.Reference = taskBase.Reference ∧
    taskAfterUpdate.Config.Reference = taskBase.Reference := by
  have h := (c9_update_preserves_reference allowAll allowAll 5
    [("t1", taskBase)] "t1" cfgOtherRef taskBase (by decide)).1
    taskAfterUpdate [("t1", taskAfterUpdate)] (by rfl)
  exact ⟨by rfl, h.1, h.2.1⟩

end TranscodeManager
